import Mathlib

/-!
Formal model of the multi-device request scheduler implemented in
`inference-engine/src/multi_device/multi_device_exec_network.cpp`.

The C++ class `MultiDeviceExecutableNetwork` owns, per device, a vector of
worker infer requests (`_workerRequests`) and a queue of currently idle
workers (`_idleWorkerRequests`), plus one cross-device queue of pending
tasks (`_inferPipelineTasks`), a mutable prioritized device list
(`_devicePriorities`), a termination flag (`_terminate`) and a
configuration map (`_config`).  We embed that state as a Lean structure,
each method of the class as a state-transforming function, and the
asynchronous system as a small-step transition relation.
-/

namespace MultiDevicePlugin

/-- Device identifier (a device name string, the key of `DeviceMap`). -/
abbrev DeviceName := String

/-- A worker slot identifier: the owning device's name together with the
index of the worker inside that device's `_workerRequests` vector.  A
`WorkerInferRequest` lives at a fixed address inside that vector, so this
pair faithfully identifies one `WorkerInferRequest*`. -/
abbrev SlotId := DeviceName × Nat

/-- Opaque identifier standing for one `InferenceEngine::Task` closure. -/
abbrev Task := Nat

/-- Opaque status code (`InferenceEngine::StatusCode`). -/
abbrev StatusCode := Nat

/-- The slice of `DeviceInformation` used by this translation unit: the
device name and the per-device request-count override, where `-1` is the
"use the device's reported default" sentinel. -/
structure DeviceInformation where
  deviceName : DeviceName
  numRequestsPerDevices : Int
deriving DecidableEq, Repr

/-- The collaborator interface of a compiled per-device network
(`InferenceEngine::ExecutableNetwork`) as consumed here: the
`OPTIMAL_NUMBER_OF_INFER_REQUESTS` metric (`none` models the metric query
throwing, i.e. the device cannot report the value) and the
`NETWORK_NAME` metric. -/
structure ExecutableNetwork where
  optimalNumberOfInferRequests : Option Nat
  networkName : String
deriving DecidableEq, Repr

/-- Error kinds raised by this translation unit, mirroring the THROW
macros used in the source: a plain `THROW_IE_EXCEPTION` (general error,
used for the capability-unsupported failures), `NOT_IMPLEMENTED_str`
and `NOT_FOUND_str`. -/
inductive IEError where
  | GeneralError
  | NotImplemented
  | NotFound
deriving DecidableEq, Repr

instance : DecidableEq (Except IEError Nat) := fun a b =>
  match a, b with
  | .ok x, .ok y =>
    if h : x = y then isTrue (by rw [h])
    else isFalse (fun hc => h (Except.ok.inj hc))
  | .error x, .error y =>
    if h : x = y then isTrue (by rw [h])
    else isFalse (fun hc => h (Except.error.inj hc))
  | .ok _, .error _ => isFalse (fun hc => Except.noConfusion hc)
  | .error _, .ok _ => isFalse (fun hc => Except.noConfusion hc)

/-- The mutable state of one `MultiDeviceExecutableNetwork` instance.
Queues are lists with the front at the head: `try_pop` takes the head,
`push` appends at the tail. -/
structure NetState where
  /-- `_devicePriorities`: the prioritized device list. -/
  devicePriorities : List DeviceInformation
  /-- `_networksPerDevice`: admitted devices with their compiled networks. -/
  networksPerDevice : List (DeviceName × ExecutableNetwork)
  /-- `_idleWorkerRequests`: per-device queue of idle worker slots. -/
  idleWorkerRequests : DeviceName → List SlotId
  /-- `_inferPipelineTasks`: the cross-device pending task queue. -/
  inferPipelineTasks : List Task
  /-- Per-slot `_task` member: the task currently bound to the slot. -/
  workerTask : SlotId → Option Task
  /-- Per-slot `_status` member: the last completion status code. -/
  workerStatus : SlotId → Option StatusCode
  /-- The set of all allocated worker slots (`_workerRequests`). -/
  workerSlots : List SlotId
  /-- `_config`: the stored configuration map. -/
  config : List (String × String)
  /-- `_terminate`: the termination flag. -/
  terminate : Bool
  /-- `_thisWorkerInferRequest`: the thread-affinity current-slot pointer. -/
  thisWorkerInferRequest : Option SlotId
  /-- Ghost instrumentation: how many times `ScheduleToWorkerInferRequest`
  has been invoked on this state. -/
  schedulerCalls : Nat

/-- Replace one device's idle worker queue. -/
def updIdle (st : NetState) (d : DeviceName) (q : List SlotId) : NetState :=
  { st with idleWorkerRequests := fun d' => if d' = d then q else st.idleWorkerRequests d' }

/-- Set one slot's `_task` binding. -/
def setWorkerTask (st : NetState) (w : SlotId) (t : Option Task) : NetState :=
  { st with workerTask := fun v => if v = w then t else st.workerTask v }

/-- Set one slot's `_status` member. -/
def setWorkerStatus (st : NetState) (w : SlotId) (c : Option StatusCode) : NetState :=
  { st with workerStatus := fun v => if v = w then c else st.workerStatus v }

/-- Modelled from the spec: the pending-task closures themselves are built
by the async-request layer (`multi_device_async_infer_request.cpp`), which
is not among the modelled sources.  Per the spec, a Pending Task is "bind
me to a slot and start": invoked while the thread-affinity pointer
`_thisWorkerInferRequest` names a slot, the closure records itself as that
slot's task binding and starts hardware execution on it. -/
def invokeTask (t : Task) (st : NetState) : NetState :=
  match st.thisWorkerInferRequest with
  | some w => setWorkerTask st w (some t)
  | none => st

/-- `MultiDeviceExecutableNetwork::ScheduleToWorkerInferRequest`, the body
of the `for (auto&& device : devices)` loop, running over the snapshot
`ds` of `_devicePriorities`.  For each device in order: try to pop an idle
worker; if one was obtained, try to pop a pending task; if both succeeded,
publish the slot in `_thisWorkerInferRequest`, invoke the task, release
the `IdleGuard` (the slot stays out of the idle queue) and `break`; if no
task was pending, the `IdleGuard` destructor pushes the slot back at the
tail of the idle queue and the loop continues with the next device. -/
def scheduleLoop : List DeviceInformation → NetState → NetState
  | [], st => st
  | device :: rest, st =>
    match st.idleWorkerRequests device.deviceName, st.inferPipelineTasks with
    | [], _ => scheduleLoop rest st
    | w :: q, [] => scheduleLoop rest (updIdle st device.deviceName (q ++ [w]))
    | w :: q, t :: ts =>
      invokeTask t { updIdle st device.deviceName q with
                       inferPipelineTasks := ts, thisWorkerInferRequest := some w }

/-- `MultiDeviceExecutableNetwork::ScheduleToWorkerInferRequest`: take a
lock-protected snapshot (copy) of `_devicePriorities` and run the
scheduling loop over it.  The ghost counter `schedulerCalls` records the
invocation. -/
def ScheduleToWorkerInferRequest (st : NetState) : NetState :=
  scheduleLoop st.devicePriorities { st with schedulerCalls := st.schedulerCalls + 1 }

/-- `MultiDeviceExecutableNetwork::run`: if `_terminate` is set, do
nothing; otherwise push the task on `_inferPipelineTasks` and invoke the
scheduler once. -/
def run (t : Task) (st : NetState) : NetState :=
  if st.terminate then st
  else ScheduleToWorkerInferRequest
    { st with inferPipelineTasks := st.inferPipelineTasks ++ [t] }

/-- The completion callback registered on each worker's infer request in
the constructor.  An `IdleGuard` is armed for the slot; the status code is
recorded; the bound task is moved out (clearing the binding) and the moved
closure is invoked (its user-visible continuation is external to this
state).  If `_terminate` is not set, the guard is released and the slot is
explicitly pushed back on its device's idle queue, then the scheduler is
invoked; otherwise the guard's destructor performs the same requeue and no
scheduling occurs. -/
def completionCallback (w : SlotId) (status : StatusCode) (st : NetState) : NetState :=
  let st1 := setWorkerTask (setWorkerStatus st w (some status)) w none
  let st2 := updIdle st1 w.1 (st1.idleWorkerRequests w.1 ++ [w])
  if st1.terminate then st2 else ScheduleToWorkerInferRequest st2

/-- The worker slots allocated for one device: indices `0 .. n-1` of the
resized `_workerRequests[device]` vector, pushed into the idle queue in
creation order. -/
def mkWorkerSlots (d : DeviceName) (n : Nat) : List SlotId :=
  (List.range n).map (fun i => (d, i))

/-- The per-device worker count chosen by the constructor:
`(_devicePriorities.end() == it || it->numRequestsPerDevices == -1)
? optimalNum : it->numRequestsPerDevices`, where the `int` override is
converted to `unsigned int` (reduction modulo `2 ^ 32`) by the ternary
expression before sizing the vector. -/
def numRequestsFor (prios : List DeviceInformation) (device : DeviceName)
    (optimalNum : Nat) : Nat :=
  match prios.find? (fun d => d.deviceName = device) with
  | none => optimalNum
  | some it =>
    if it.numRequestsPerDevices = -1 then optimalNum
    else (it.numRequestsPerDevices % (2 ^ 32 : Int)).toNat

/-- The constructor's per-device loop over `_networksPerDevice`: query the
`OPTIMAL_NUMBER_OF_INFER_REQUESTS` metric (failure is fatal), choose the
worker count, allocate that many worker slots each wrapping a freshly
created infer request, and push all of them into the device's idle
queue. -/
def constructWorkers (prios : List DeviceInformation) :
    List (DeviceName × ExecutableNetwork) → NetState → Except IEError NetState
  | [], st => .ok st
  | (device, network) :: rest, st =>
    match network.optimalNumberOfInferRequests with
    | none => .error .GeneralError
    | some optimalNum =>
      let slots := mkWorkerSlots device (numRequestsFor prios device optimalNum)
      constructWorkers prios rest
        (updIdle { st with workerSlots := st.workerSlots ++ slots }
          device (st.idleWorkerRequests device ++ slots))

/-- The state as initialized by the constructor's member initializers,
before the worker-allocation loop runs. -/
def initialState (networkDevices : List DeviceInformation)
    (networks : List (DeviceName × ExecutableNetwork))
    (cfg : List (String × String)) : NetState :=
  { devicePriorities := networkDevices
    networksPerDevice := networks
    idleWorkerRequests := fun _ => []
    inferPipelineTasks := []
    workerTask := fun _ => none
    workerStatus := fun _ => none
    workerSlots := []
    config := cfg
    terminate := false
    thisWorkerInferRequest := none
    schedulerCalls := 0 }

/-- `MultiDeviceExecutableNetwork::MultiDeviceExecutableNetwork`: member
initialization followed by the worker-allocation loop. -/
def MultiDeviceExecutableNetwork (networksPerDevice : List (DeviceName × ExecutableNetwork))
    (networkDevices : List DeviceInformation)
    (cfg : List (String × String)) : Except IEError NetState :=
  constructWorkers networkDevices networksPerDevice
    (initialState networkDevices networksPerDevice cfg)

/-- Association-list lookup, modelling `std::map::find`. -/
def lookupKey {β : Type} (k : String) : List (String × β) → Option β
  | [] => none
  | (k', v) :: rest => if k' = k then some v else lookupKey k rest

/-- Association-list update-or-insert, modelling `map[key] = value`. -/
def setKey {β : Type} (k : String) (v : β) : List (String × β) → List (String × β)
  | [] => [(k, v)]
  | (k', v') :: rest => if k' = k then (k, v) :: rest else (k', v') :: setKey k v rest

/-- `MultiDeviceConfigParams::KEY_MULTI_DEVICE_PRIORITIES`. -/
def KEY_MULTI_DEVICE_PRIORITIES : String := "MULTI_DEVICE_PRIORITIES"

/-- `MultiDeviceExecutableNetwork::SetConfig`.  `parseMetaDevices` stands
for the plugin collaborator `MultiDeviceInferencePlugin::ParseMetaDevices`
(defined outside this translation unit), which turns the priority string
into a device list.  Returns the post-call state together with the raised
error, if any; every throw in the source happens before any member is
mutated, so a failing call returns the state unchanged. -/
def SetConfig (parseMetaDevices : String → List DeviceInformation)
    (cfg : List (String × String)) (st : NetState) : NetState × Option IEError :=
  match lookupKey KEY_MULTI_DEVICE_PRIORITIES cfg with
  | none => (st, some .NotImplemented)
  | some prioritiesValue =>
    if 1 < cfg.length then (st, some .NotImplemented)
    else
      let metaDevices := parseMetaDevices prioritiesValue
      if metaDevices.any (fun d => d.numRequestsPerDevices != -1) then
        (st, some .NotImplemented)
      else if metaDevices.any
          (fun d => (lookupKey d.deviceName st.networksPerDevice).isNone) then
        (st, some .NotFound)
      else
        ({ st with
            devicePriorities := metaDevices
            config := setKey KEY_MULTI_DEVICE_PRIORITIES prioritiesValue st.config },
          none)

/-- `MultiDeviceExecutableNetwork::GetConfig`: look the key up in
`_config`, throwing `NOT_FOUND` when absent. -/
def GetConfig (name : String) (st : NetState) : Except IEError String :=
  match lookupKey name st.config with
  | some v => .ok v
  | none => .error .NotFound

/-- The accumulation loop of `GetMetric(OPTIMAL_NUMBER_OF_INFER_REQUESTS)`:
`unsigned int res = 0; for (auto n : _networksPerDevice) res += ...;`, the
addition wrapping modulo `2 ^ 32`; a device whose metric query throws is
fatal. -/
def getMetricLoop : List (DeviceName × ExecutableNetwork) → Nat → Except IEError Nat
  | [], res => .ok res
  | (_, network) :: rest, res =>
    match network.optimalNumberOfInferRequests with
    | none => .error .GeneralError
    | some v => getMetricLoop rest ((res + v) % 2 ^ 32)

/-- The `OPTIMAL_NUMBER_OF_INFER_REQUESTS` branch of
`MultiDeviceExecutableNetwork::GetMetric`. -/
def GetMetricOptimalNumberOfInferRequests (st : NetState) : Except IEError Nat :=
  getMetricLoop st.networksPerDevice 0

/-- The aggregate concurrency capacity as the spec words it: the plain
(unbounded) sum, across all admitted devices, of each device's reported
optimal concurrency.  Stated separately from the code-derived
`GetMetricOptimalNumberOfInferRequests` so the two can be compared. -/
def specAggregateCapacity (st : NetState) : Nat :=
  (st.networksPerDevice.map (fun p => p.2.optimalNumberOfInferRequests.getD 0)).sum

/-- Steps 1 and 2 of `MultiDeviceExecutableNetwork::~MultiDeviceExecutableNetwork`:
clear `_devicePriorities` under the lock, then set `_terminate`.  (Step 3,
destroying `_workerRequests`, ends the instance's life and is outside the
transition system.) -/
def networkDestructor (st : NetState) : NetState :=
  { st with devicePriorities := [], terminate := true }

/-- The asynchronous environment's possible moves on a live network: a
caller submits a task through `run`; the hardware delivers a completion
for a slot that is currently bound (i.e. executing); a caller invokes
`SetConfig`; the destructor begins tearing the network down. -/
inductive Step : NetState → NetState → Prop
  | runStep (t : Task) (st : NetState) : Step st (run t st)
  | completeStep (w : SlotId) (status : StatusCode) (st : NetState)
      (hw : w ∈ st.workerSlots) (hb : (st.workerTask w).isSome = true) :
      Step st (completionCallback w status st)
  | setConfigStep (parseMetaDevices : String → List DeviceInformation)
      (cfg : List (String × String)) (st : NetState) :
      Step st (SetConfig parseMetaDevices cfg st).1
  | destructStep (st : NetState) : Step st (networkDestructor st)

/-- States reachable from a successful construction by environment
steps. -/
inductive Reachable (networkDevices : List DeviceInformation)
    (networks : List (DeviceName × ExecutableNetwork))
    (cfg : List (String × String)) : NetState → Prop
  | init (st : NetState)
      (h : MultiDeviceExecutableNetwork networks networkDevices cfg = .ok st) :
      Reachable networkDevices networks cfg st
  | step (st st' : NetState) (h : Reachable networkDevices networks cfg st)
      (hs : Step st st') : Reachable networkDevices networks cfg st'

/-- The slot-accounting invariant of the spec: every member of an idle
queue is an allocated slot of that very device, and every allocated slot
is in exactly one of two states — bound to a task and absent from its
device's idle queue, or unbound and present exactly once in its own
device's idle queue. -/
def SlotInvariant (st : NetState) : Prop :=
  (∀ d w, w ∈ st.idleWorkerRequests d → w.1 = d ∧ w ∈ st.workerSlots) ∧
  (∀ w, w ∈ st.workerSlots →
    ((st.workerTask w).isSome → (st.idleWorkerRequests w.1).count w = 0) ∧
    (st.workerTask w = none → (st.idleWorkerRequests w.1).count w = 1))

/-- The plain sum of the reported optimal counts of a device list. -/
def sumOptimal (nets : List (DeviceName × ExecutableNetwork)) : Nat :=
  (nets.map (fun p => p.2.optimalNumberOfInferRequests.getD 0)).sum

/-! ### Concrete instances used to exercise the theorems -/

/-- A two-device configuration: CPU with the default request count, GPU
with an explicit override of 3. -/
def exDevices : List DeviceInformation :=
  [{ deviceName := "CPU", numRequestsPerDevices := -1 },
   { deviceName := "GPU", numRequestsPerDevices := 3 }]

def exNetworks : List (DeviceName × ExecutableNetwork) :=
  [("CPU", { optimalNumberOfInferRequests := some 2, networkName := "net" }),
   ("GPU", { optimalNumberOfInferRequests := some 4, networkName := "net" })]

def exConfig : List (String × String) :=
  [(KEY_MULTI_DEVICE_PRIORITIES, "CPU,GPU")]

/-- The state produced by a successful construction over the example
devices. -/
def exampleState : NetState :=
  match MultiDeviceExecutableNetwork exNetworks exDevices exConfig with
  | .ok st => st
  | .error _ => initialState exDevices exNetworks exConfig

/-- A live two-device state, one idle slot per device and one pending
task. -/
def stPrio : NetState :=
  { devicePriorities := [{ deviceName := "A", numRequestsPerDevices := -1 },
                         { deviceName := "B", numRequestsPerDevices := -1 }]
    networksPerDevice := [("A", { optimalNumberOfInferRequests := some 1, networkName := "n" }),
                          ("B", { optimalNumberOfInferRequests := some 1, networkName := "n" })]
    idleWorkerRequests := fun d =>
      if d = "A" then [("A", 0)] else if d = "B" then [("B", 0)] else []
    inferPipelineTasks := [7]
    workerTask := fun _ => none
    workerStatus := fun _ => none
    workerSlots := [("A", 0), ("B", 0)]
    config := []
    terminate := false
    thisWorkerInferRequest := none
    schedulerCalls := 0 }

/-- A live two-device state with an empty pending-task queue; device B has
two idle slots, so a rotation of B's queue is observable. -/
def stEmptyTasks : NetState :=
  { devicePriorities := [{ deviceName := "A", numRequestsPerDevices := -1 },
                         { deviceName := "B", numRequestsPerDevices := -1 }]
    networksPerDevice := [("A", { optimalNumberOfInferRequests := some 1, networkName := "n" }),
                          ("B", { optimalNumberOfInferRequests := some 2, networkName := "n" })]
    idleWorkerRequests := fun d =>
      if d = "A" then [("A", 0)] else if d = "B" then [("B", 0), ("B", 1)] else []
    inferPipelineTasks := []
    workerTask := fun _ => none
    workerStatus := fun _ => none
    workerSlots := [("A", 0), ("B", 0), ("B", 1)]
    config := []
    terminate := false
    thisWorkerInferRequest := none
    schedulerCalls := 0 }

/-- A state whose termination flag is set while slot ("A", 0) is still
bound to task 9 (an in-flight hardware execution during teardown). -/
def stTerm : NetState :=
  { devicePriorities := []
    networksPerDevice := [("A", { optimalNumberOfInferRequests := some 1, networkName := "n" })]
    idleWorkerRequests := fun _ => []
    inferPipelineTasks := [5]
    workerTask := fun v => if v = ("A", 0) then some 9 else none
    workerStatus := fun _ => none
    workerSlots := [("A", 0)]
    config := []
    terminate := true
    thisWorkerInferRequest := none
    schedulerCalls := 0 }

/-- A single-admitted-device state used to exercise `SetConfig`. -/
def stCfg : NetState :=
  { devicePriorities := [{ deviceName := "CPU", numRequestsPerDevices := -1 }]
    networksPerDevice := [("CPU", { optimalNumberOfInferRequests := some 2, networkName := "n" })]
    idleWorkerRequests := fun d => if d = "CPU" then [("CPU", 0), ("CPU", 1)] else []
    inferPipelineTasks := []
    workerTask := fun _ => none
    workerStatus := fun _ => none
    workerSlots := [("CPU", 0), ("CPU", 1)]
    config := [(KEY_MULTI_DEVICE_PRIORITIES, "CPU"), ("PERF_COUNT", "NO")]
    terminate := false
    thisWorkerInferRequest := none
    schedulerCalls := 0 }

/-- A parser standing in for `ParseMetaDevices` on the inputs exercised
below. -/
def exParse (s : String) : List DeviceInformation :=
  if s = "GPU" then [{ deviceName := "GPU", numRequestsPerDevices := -1 }]
  else if s = "CPU4" then [{ deviceName := "CPU", numRequestsPerDevices := 4 }]
  else [{ deviceName := "CPU", numRequestsPerDevices := -1 }]

/-- Two admitted devices each reporting an optimal concurrency of
`2 ^ 31`, so that the 32-bit accumulation of the aggregate metric
wraps. -/
def stWrap : NetState :=
  { devicePriorities := [{ deviceName := "A", numRequestsPerDevices := -1 },
                         { deviceName := "B", numRequestsPerDevices := -1 }]
    networksPerDevice :=
      [("A", { optimalNumberOfInferRequests := some (2 ^ 31), networkName := "n" }),
       ("B", { optimalNumberOfInferRequests := some (2 ^ 31), networkName := "n" })]
    idleWorkerRequests := fun _ => []
    inferPipelineTasks := []
    workerTask := fun _ => none
    workerStatus := fun _ => none
    workerSlots := []
    config := []
    terminate := false
    thisWorkerInferRequest := none
    schedulerCalls := 0 }

/-- A state where one admitted device cannot report its optimal
concurrency. -/
def stNoMetric : NetState :=
  { stWrap with
      networksPerDevice :=
        [("A", { optimalNumberOfInferRequests := some 2, networkName := "n" }),
         ("B", { optimalNumberOfInferRequests := none, networkName := "n" })] }

/-! ### Basic field lemmas -/

@[simp] lemma updIdle_idle (st : NetState) (d : DeviceName) (q : List SlotId)
    (d' : DeviceName) :
    (updIdle st d q).idleWorkerRequests d' = if d' = d then q else st.idleWorkerRequests d' :=
  rfl

@[simp] lemma updIdle_task (st : NetState) (d : DeviceName) (q : List SlotId) :
    (updIdle st d q).workerTask = st.workerTask := rfl

@[simp] lemma updIdle_slots (st : NetState) (d : DeviceName) (q : List SlotId) :
    (updIdle st d q).workerSlots = st.workerSlots := rfl

@[simp] lemma updIdle_tasks (st : NetState) (d : DeviceName) (q : List SlotId) :
    (updIdle st d q).inferPipelineTasks = st.inferPipelineTasks := rfl

@[simp] lemma updIdle_terminate (st : NetState) (d : DeviceName) (q : List SlotId) :
    (updIdle st d q).terminate = st.terminate := rfl

@[simp] lemma updIdle_calls (st : NetState) (d : DeviceName) (q : List SlotId) :
    (updIdle st d q).schedulerCalls = st.schedulerCalls := rfl

@[simp] lemma updIdle_this (st : NetState) (d : DeviceName) (q : List SlotId) :
    (updIdle st d q).thisWorkerInferRequest = st.thisWorkerInferRequest := rfl

@[simp] lemma setWorkerTask_task (st : NetState) (w : SlotId) (t : Option Task)
    (v : SlotId) :
    (setWorkerTask st w t).workerTask v = if v = w then t else st.workerTask v := rfl

@[simp] lemma setWorkerTask_idle (st : NetState) (w : SlotId) (t : Option Task) :
    (setWorkerTask st w t).idleWorkerRequests = st.idleWorkerRequests := rfl

@[simp] lemma setWorkerTask_slots (st : NetState) (w : SlotId) (t : Option Task) :
    (setWorkerTask st w t).workerSlots = st.workerSlots := rfl

@[simp] lemma setWorkerTask_terminate (st : NetState) (w : SlotId) (t : Option Task) :
    (setWorkerTask st w t).terminate = st.terminate := rfl

@[simp] lemma setWorkerTask_tasks (st : NetState) (w : SlotId) (t : Option Task) :
    (setWorkerTask st w t).inferPipelineTasks = st.inferPipelineTasks := rfl

@[simp] lemma setWorkerTask_calls (st : NetState) (w : SlotId) (t : Option Task) :
    (setWorkerTask st w t).schedulerCalls = st.schedulerCalls := rfl

@[simp] lemma setWorkerStatus_task (st : NetState) (w : SlotId) (c : Option StatusCode) :
    (setWorkerStatus st w c).workerTask = st.workerTask := rfl

@[simp] lemma setWorkerStatus_idle (st : NetState) (w : SlotId) (c : Option StatusCode) :
    (setWorkerStatus st w c).idleWorkerRequests = st.idleWorkerRequests := rfl

@[simp] lemma setWorkerStatus_slots (st : NetState) (w : SlotId) (c : Option StatusCode) :
    (setWorkerStatus st w c).workerSlots = st.workerSlots := rfl

@[simp] lemma setWorkerStatus_terminate (st : NetState) (w : SlotId) (c : Option StatusCode) :
    (setWorkerStatus st w c).terminate = st.terminate := rfl

@[simp] lemma setWorkerStatus_tasks (st : NetState) (w : SlotId) (c : Option StatusCode) :
    (setWorkerStatus st w c).inferPipelineTasks = st.inferPipelineTasks := rfl

@[simp] lemma setWorkerStatus_calls (st : NetState) (w : SlotId) (c : Option StatusCode) :
    (setWorkerStatus st w c).schedulerCalls = st.schedulerCalls := rfl

/-! ### Unfolding equations of the scheduling loop -/

lemma scheduleLoop_nil (st : NetState) : scheduleLoop [] st = st := rfl

/-- When the device's idle queue is empty, the loop moves on to the next
device. -/
lemma scheduleLoop_cons_noidle (device : DeviceInformation)
    (rest : List DeviceInformation) (st : NetState)
    (hq : st.idleWorkerRequests device.deviceName = []) :
    scheduleLoop (device :: rest) st = scheduleLoop rest st := by
  rw [scheduleLoop, hq]

/-- When an idle slot is popped but no task is pending, the `IdleGuard`
destructor pushes the slot back at the tail of the queue and the loop
continues with the next device. -/
lemma scheduleLoop_cons_rotate (device : DeviceInformation)
    (rest : List DeviceInformation) (st : NetState) (w : SlotId) (q : List SlotId)
    (hq : st.idleWorkerRequests device.deviceName = w :: q)
    (ht : st.inferPipelineTasks = []) :
    scheduleLoop (device :: rest) st =
      scheduleLoop rest (updIdle st device.deviceName (q ++ [w])) := by
  rw [scheduleLoop, hq, ht]

/-- When both an idle slot and a pending task are obtained, the slot is
published in the thread-affinity pointer, the task is invoked, the guard
is released and the loop breaks. -/
lemma scheduleLoop_cons_pair (device : DeviceInformation)
    (rest : List DeviceInformation) (st : NetState) (w : SlotId) (q : List SlotId)
    (t : Task) (ts : List Task)
    (hq : st.idleWorkerRequests device.deviceName = w :: q)
    (ht : st.inferPipelineTasks = t :: ts) :
    scheduleLoop (device :: rest) st =
      invokeTask t { updIdle st device.deviceName q with
                       inferPipelineTasks := ts, thisWorkerInferRequest := some w } := by
  rw [scheduleLoop, hq, ht]

/-! ### Fields the scheduling loop never touches -/

/-- The scheduling loop never changes the termination flag, the slot
universe, the status codes, the registry, the admitted networks, the
stored configuration, or the ghost invocation counter. -/
lemma scheduleLoop_const (ds : List DeviceInformation) (st : NetState) :
    (scheduleLoop ds st).terminate = st.terminate ∧
    (scheduleLoop ds st).workerSlots = st.workerSlots ∧
    (scheduleLoop ds st).workerStatus = st.workerStatus ∧
    (scheduleLoop ds st).devicePriorities = st.devicePriorities ∧
    (scheduleLoop ds st).networksPerDevice = st.networksPerDevice ∧
    (scheduleLoop ds st).config = st.config ∧
    (scheduleLoop ds st).schedulerCalls = st.schedulerCalls := by
  induction ds generalizing st with
  | nil => exact ⟨rfl, rfl, rfl, rfl, rfl, rfl, rfl⟩
  | cons device rest ih =>
    rcases hq : st.idleWorkerRequests device.deviceName with _ | ⟨w, q⟩
    · rw [scheduleLoop_cons_noidle device rest st hq]
      exact ih st
    · rcases ht : st.inferPipelineTasks with _ | ⟨t, ts⟩
      · rw [scheduleLoop_cons_rotate device rest st w q hq ht]
        simpa using ih (updIdle st device.deviceName (q ++ [w]))
      · rw [scheduleLoop_cons_pair device rest st w q t ts hq ht]
        simp [invokeTask, setWorkerTask, updIdle]

/-! ### Preservation of the slot invariant -/

lemma count_rotate (w x : SlotId) (q : List SlotId) :
    (q ++ [x]).count w = (x :: q).count w := by
  simp [List.count_append, List.count_cons]

/-- The slot invariant only reads the idle queues, the slot universe and
the task bindings. -/
lemma SlotInvariant_of_fields {st st' : NetState}
    (hI : st'.idleWorkerRequests = st.idleWorkerRequests)
    (hS : st'.workerSlots = st.workerSlots)
    (hT : st'.workerTask = st.workerTask) :
    SlotInvariant st → SlotInvariant st' := by
  intro h
  unfold SlotInvariant at h ⊢
  rw [hI, hS, hT]
  exact h

/-- What the invariant says about the head of a nonempty idle queue: it is
a slot of that device, it is allocated, it is unbound, and it occurs
nowhere else in the queue. -/
lemma head_of_idle {st : NetState} (hInv : SlotInvariant st) {d : DeviceName}
    {w : SlotId} {q : List SlotId} (hq : st.idleWorkerRequests d = w :: q) :
    w.1 = d ∧ w ∈ st.workerSlots ∧ st.workerTask w = none ∧ q.count w = 0 := by
  obtain ⟨h1, h2⟩ := hInv
  obtain ⟨hd, hs⟩ := h1 d w (by rw [hq]; exact List.mem_cons_self w q)
  have hcount : (st.idleWorkerRequests w.1).count w = (w :: q).count w := by
    rw [hd, hq]
  have hone : (w :: q).count w = q.count w + 1 := by
    simp [List.count_cons]
  have hnone : st.workerTask w = none := by
    rcases ho : st.workerTask w with _ | t
    · rfl
    · exfalso
      have := (h2 w hs).1 (by rw [ho]; rfl)
      rw [hcount, hone] at this
      omega
  have := (h2 w hs).2 hnone
  rw [hcount, hone] at this
  exact ⟨hd, hs, hnone, by omega⟩

/-- Rotating a device's idle queue (popping the head and pushing it back
at the tail, which is what a scheduling pass does when it finds no pending
task) preserves the slot invariant. -/
lemma SlotInvariant_rotate {st : NetState} (hInv : SlotInvariant st)
    {d : DeviceName} {w : SlotId} {q : List SlotId}
    (hq : st.idleWorkerRequests d = w :: q) :
    SlotInvariant (updIdle st d (q ++ [w])) := by
  obtain ⟨h1, h2⟩ := hInv
  constructor
  · intro d' v hv
    simp only [updIdle_idle] at hv
    by_cases hd : d' = d
    · subst hd
      rw [if_pos rfl] at hv
      have : v ∈ w :: q := by
        rcases List.mem_append.1 hv with h | h
        · exact List.mem_cons_of_mem w h
        · simp only [List.mem_singleton] at h
          subst h
          exact List.mem_cons_self v q
      have := h1 d' v (by rw [hq]; exact this)
      exact this
    · rw [if_neg hd] at hv
      exact h1 d' v hv
  · intro v hv
    have base := h2 v hv
    simp only [updIdle_idle, updIdle_task]
    by_cases hd : v.1 = d
    · rw [if_pos hd]
      have : (q ++ [w]).count v = (st.idleWorkerRequests v.1).count v := by
        rw [count_rotate, hd, hq]
      rw [this]
      exact base
    · rw [if_neg hd]
      exact base

/-- Binding the pending task `t` to the slot `w` that was just popped from
device `d`'s idle queue preserves the slot invariant. -/
lemma SlotInvariant_pair {st : NetState} (hInv : SlotInvariant st)
    {d : DeviceName} {w : SlotId} {q : List SlotId} {t : Task} {ts : List Task}
    (hq : st.idleWorkerRequests d = w :: q) :
    SlotInvariant (invokeTask t
      { updIdle st d q with inferPipelineTasks := ts, thisWorkerInferRequest := some w }) := by
  obtain ⟨hd, hs, hnone, hzero⟩ := head_of_idle hInv hq
  obtain ⟨h1, h2⟩ := hInv
  unfold invokeTask
  simp only []
  constructor
  · intro d' v hv
    simp only [setWorkerTask] at hv ⊢
    change v ∈ (if d' = d then q else st.idleWorkerRequests d') at hv
    by_cases hdd : d' = d
    · rw [if_pos hdd] at hv
      subst hdd
      exact h1 d' v (by rw [hq]; exact List.mem_cons_of_mem w hv)
    · rw [if_neg hdd] at hv
      exact h1 d' v hv
  · intro v hv
    simp only [setWorkerTask] at hv ⊢
    change v ∈ st.workerSlots at hv
    have base := h2 v hv
    by_cases hvw : v = w
    · subst hvw
      constructor
      · intro _
        change (if v.1 = d then q else st.idleWorkerRequests v.1).count v = 0
        rw [if_pos hd]
        exact hzero
      · intro hvnone
        exfalso
        change (if v = v then some t else st.workerTask v) = none at hvnone
        rw [if_pos rfl] at hvnone
        exact Option.some_ne_none t hvnone
    · have htask : (if v = w then some t else st.workerTask v) = st.workerTask v := by
        rw [if_neg hvw]
      change ((if v = w then some t else st.workerTask v).isSome →
          (if v.1 = d then q else st.idleWorkerRequests v.1).count v = 0) ∧
        ((if v = w then some t else st.workerTask v) = none →
          (if v.1 = d then q else st.idleWorkerRequests v.1).count v = 1)
      rw [htask]
      by_cases hvd : v.1 = d
      · rw [if_pos hvd]
        have : q.count v = (st.idleWorkerRequests v.1).count v := by
          rw [hvd, hq, List.count_cons]
          simp [hvw, Ne.symm hvw]
        rw [this]
        exact base
      · rw [if_neg hvd]
        exact base

/-- The scheduling loop preserves the slot invariant. -/
lemma scheduleLoop_inv (ds : List DeviceInformation) (st : NetState)
    (hInv : SlotInvariant st) : SlotInvariant (scheduleLoop ds st) := by
  induction ds generalizing st with
  | nil => exact hInv
  | cons device rest ih =>
    rcases hq : st.idleWorkerRequests device.deviceName with _ | ⟨w, q⟩
    · rw [scheduleLoop_cons_noidle device rest st hq]
      exact ih st hInv
    · rcases ht : st.inferPipelineTasks with _ | ⟨t, ts⟩
      · rw [scheduleLoop_cons_rotate device rest st w q hq ht]
        exact ih _ (SlotInvariant_rotate hInv hq)
      · rw [scheduleLoop_cons_pair device rest st w q t ts hq ht]
        exact SlotInvariant_pair hInv hq

/-! ### Worker-pool construction -/

lemma mem_mkWorkerSlots {d : DeviceName} {n : Nat} {v : SlotId} :
    v ∈ mkWorkerSlots d n ↔ ∃ i, i < n ∧ v = (d, i) := by
  unfold mkWorkerSlots
  simp [List.mem_map, List.mem_range, eq_comm]

lemma fst_of_mem_mkWorkerSlots {d : DeviceName} {n : Nat} {v : SlotId}
    (h : v ∈ mkWorkerSlots d n) : v.1 = d := by
  obtain ⟨i, _, rfl⟩ := mem_mkWorkerSlots.1 h
  rfl

lemma nodup_mkWorkerSlots (d : DeviceName) (n : Nat) : (mkWorkerSlots d n).Nodup := by
  refine List.Nodup.map ?_ (List.nodup_range n)
  intro a b h
  simpa using h

lemma count_eq_one_of_nodup_mem {l : List SlotId} (hn : l.Nodup) {v : SlotId}
    (h : v ∈ l) : l.count v = 1 := by
  induction l with
  | nil => cases h
  | cons a l ih =>
    rcases List.mem_cons.1 h with rfl | hmem
    · rw [List.count_cons_self, List.count_eq_zero_of_not_mem (List.nodup_cons.1 hn).1]
    · have hne : v ≠ a := by
        rintro rfl
        exact (List.nodup_cons.1 hn).1 hmem
      rw [List.count_cons_of_ne hne]
      exact ih (List.nodup_cons.1 hn).2 hmem

lemma count_mkWorkerSlots_of_mem {d : DeviceName} {n : Nat} {v : SlotId}
    (h : v ∈ mkWorkerSlots d n) : (mkWorkerSlots d n).count v = 1 :=
  count_eq_one_of_nodup_mem (nodup_mkWorkerSlots d n) h

lemma constructWorkers_cons_err (prios : List DeviceInformation)
    (device : DeviceName) (network : ExecutableNetwork)
    (rest : List (DeviceName × ExecutableNetwork)) (st : NetState)
    (ho : network.optimalNumberOfInferRequests = none) :
    constructWorkers prios ((device, network) :: rest) st = .error .GeneralError := by
  rw [constructWorkers, ho]

lemma constructWorkers_cons_ok (prios : List DeviceInformation)
    (device : DeviceName) (network : ExecutableNetwork)
    (rest : List (DeviceName × ExecutableNetwork)) (st : NetState) (o : Nat)
    (ho : network.optimalNumberOfInferRequests = some o) :
    constructWorkers prios ((device, network) :: rest) st =
      constructWorkers prios rest
        (updIdle { st with workerSlots :=
              st.workerSlots ++ mkWorkerSlots device (numRequestsFor prios device o) }
          device (st.idleWorkerRequests device ++
              mkWorkerSlots device (numRequestsFor prios device o))) := by
  rw [constructWorkers, ho]

/-- Allocating a fresh batch of worker slots for a so-far-untouched device
and pushing all of them into that device's idle queue preserves the slot
invariant. -/
lemma SlotInvariant_addDevice {st : NetState} (hInv : SlotInvariant st)
    (device : DeviceName) (n : Nat)
    (hfresh : ∀ w ∈ st.workerSlots, w.1 ≠ device)
    (hempty : st.idleWorkerRequests device = [])
    (hfree : ∀ w, w ∉ st.workerSlots → st.workerTask w = none) :
    SlotInvariant (updIdle { st with workerSlots := st.workerSlots ++ mkWorkerSlots device n }
      device (st.idleWorkerRequests device ++ mkWorkerSlots device n)) := by
  obtain ⟨h1, h2⟩ := hInv
  rw [hempty, List.nil_append]
  constructor
  · intro d v hv
    simp only [updIdle_idle] at hv
    by_cases hd : d = device
    · subst hd
      rw [if_pos rfl] at hv
      refine ⟨fst_of_mem_mkWorkerSlots hv, ?_⟩
      show v ∈ st.workerSlots ++ mkWorkerSlots d n
      exact List.mem_append.2 (Or.inr hv)
    · rw [if_neg hd] at hv
      obtain ⟨ha, hb⟩ := h1 d v hv
      exact ⟨ha, List.mem_append.2 (Or.inl hb)⟩
  · intro v hv
    change v ∈ st.workerSlots ++ mkWorkerSlots device n at hv
    simp only [updIdle_idle, updIdle_task]
    rcases List.mem_append.1 hv with hold | hnew
    · have hne : v.1 ≠ device := hfresh v hold
      rw [if_neg hne]
      exact h2 v hold
    · have hvd : v.1 = device := fst_of_mem_mkWorkerSlots hnew
      have hnot : v ∉ st.workerSlots := fun hmem => hfresh v hmem hvd
      have hvnone : st.workerTask v = none := hfree v hnot
      rw [if_pos hvd]
      constructor
      · intro hsome
        rw [hvnone] at hsome
        simp at hsome
      · intro _
        exact count_mkWorkerSlots_of_mem hnew

/-- The constructor's worker-allocation loop establishes the slot
invariant, given that the devices still to process are fresh. -/
lemma constructWorkers_inv (prios : List DeviceInformation) :
    ∀ (nets : List (DeviceName × ExecutableNetwork)) (st st' : NetState),
      SlotInvariant st →
      (nets.map Prod.fst).Nodup →
      (∀ p ∈ nets, ∀ w ∈ st.workerSlots, w.1 ≠ p.1) →
      (∀ p ∈ nets, st.idleWorkerRequests p.1 = []) →
      (∀ w, w ∉ st.workerSlots → st.workerTask w = none) →
      constructWorkers prios nets st = .ok st' → SlotInvariant st'
  | [], st, st', hInv, _, _, _, _, h => by
      rw [constructWorkers] at h
      cases h
      exact hInv
  | (device, network) :: rest, st, st', hInv, hnodup, hfresh, hempty, hfree, h => by
      rcases ho : network.optimalNumberOfInferRequests with _ | o
      · rw [constructWorkers_cons_err prios device network rest st ho] at h
        cases h
      · rw [constructWorkers_cons_ok prios device network rest st o ho] at h
        set n := numRequestsFor prios device o with hn
        have hdev : ∀ w ∈ st.workerSlots, w.1 ≠ device := by
          intro w hw
          exact hfresh (device, network) (List.mem_cons_self _ _) w hw
        have hdevq : st.idleWorkerRequests device = [] :=
          hempty (device, network) (List.mem_cons_self _ _)
        have hnodup' : ((device, network) :: rest).map Prod.fst =
            device :: rest.map Prod.fst := rfl
        rw [hnodup'] at hnodup
        have hdnotin : device ∉ rest.map Prod.fst := (List.nodup_cons.1 hnodup).1
        refine constructWorkers_inv prios rest _ st'
          (SlotInvariant_addDevice ⟨hInv.1, hInv.2⟩ device n hdev hdevq hfree)
          (List.nodup_cons.1 hnodup).2 ?_ ?_ ?_ h
        · intro p hp w hw
          simp only [updIdle_slots] at hw
          change w ∈ st.workerSlots ++ mkWorkerSlots device n at hw
          rcases List.mem_append.1 hw with hold | hnew
          · exact hfresh p (List.mem_cons_of_mem _ hp) w hold
          · rw [fst_of_mem_mkWorkerSlots hnew]
            intro hcontra
            exact hdnotin (hcontra ▸ List.mem_map_of_mem Prod.fst hp)
        · intro p hp
          simp only [updIdle_idle]
          have hpd : p.1 ≠ device := by
            intro hcontra
            exact hdnotin (hcontra ▸ List.mem_map_of_mem Prod.fst hp)
          rw [if_neg hpd]
          exact hempty p (List.mem_cons_of_mem _ hp)
        · intro w hw
          simp only [updIdle_slots] at hw
          change w ∉ st.workerSlots ++ mkWorkerSlots device n at hw
          simp only [updIdle_task]
          exact hfree w (fun hmem => hw (List.mem_append.2 (Or.inl hmem)))

/-- The freshly constructed state satisfies the slot invariant. -/
lemma construct_SlotInvariant (networks : List (DeviceName × ExecutableNetwork))
    (networkDevices : List DeviceInformation) (cfg : List (String × String))
    (st : NetState) (hnodup : (networks.map Prod.fst).Nodup)
    (h : MultiDeviceExecutableNetwork networks networkDevices cfg = .ok st) :
    SlotInvariant st := by
  refine constructWorkers_inv networkDevices networks _ st ?_ hnodup ?_ ?_ ?_ h
  · constructor
    · intro d w hw
      exact absurd hw (List.not_mem_nil w)
    · intro w hw
      exact absurd hw (List.not_mem_nil w)
  · intro p _ w hw
    exact absurd hw (List.not_mem_nil w)
  · intro p _
    rfl
  · intro w _
    rfl

/-! ### Preservation of the slot invariant by every operation -/

lemma ScheduleToWorkerInferRequest_inv {st : NetState} (hInv : SlotInvariant st) :
    SlotInvariant (ScheduleToWorkerInferRequest st) := by
  unfold ScheduleToWorkerInferRequest
  exact scheduleLoop_inv _ _ (SlotInvariant_of_fields rfl rfl rfl hInv)

lemma run_inv (t : Task) {st : NetState} (hInv : SlotInvariant st) :
    SlotInvariant (run t st) := by
  unfold run
  split
  · exact hInv
  · exact ScheduleToWorkerInferRequest_inv (SlotInvariant_of_fields rfl rfl rfl hInv)

/-- Recording the status, clearing the binding and requeueing the freshly
completed slot restores the slot invariant. -/
lemma SlotInvariant_requeue {st : NetState} (hInv : SlotInvariant st)
    (w : SlotId) (c : StatusCode) (hw : w ∈ st.workerSlots)
    (hb : (st.workerTask w).isSome = true) :
    SlotInvariant
      (updIdle (setWorkerTask (setWorkerStatus st w (some c)) w none) w.1
        ((setWorkerTask (setWorkerStatus st w (some c)) w none).idleWorkerRequests w.1
          ++ [w])) := by
  obtain ⟨h1, h2⟩ := hInv
  constructor
  · intro d v hv
    simp only [updIdle_idle, updIdle_slots, setWorkerTask_idle, setWorkerStatus_idle,
      setWorkerTask_slots, setWorkerStatus_slots] at hv ⊢
    by_cases hd : d = w.1
    · rw [if_pos hd] at hv
      rcases List.mem_append.1 hv with hold | hsing
      · obtain ⟨ha, hb'⟩ := h1 w.1 v hold
        exact ⟨ha.trans hd.symm, hb'⟩
      · simp only [List.mem_singleton] at hsing
        subst hsing
        exact ⟨hd.symm, hw⟩
    · rw [if_neg hd] at hv
      exact h1 d v hv
  · intro v hv
    simp only [updIdle_slots, setWorkerTask_slots, setWorkerStatus_slots] at hv
    simp only [updIdle_idle, updIdle_task, setWorkerTask_task, setWorkerStatus_task,
      setWorkerTask_idle, setWorkerStatus_idle]
    by_cases hvw : v = w
    · subst hvw
      rw [if_pos rfl, if_pos rfl]
      constructor
      · intro hsome
        simp at hsome
      · intro _
        rw [List.count_append, (h2 v hv).1 hb,
          List.count_cons_self, List.count_nil]
    · rw [if_neg hvw]
      by_cases hvd : v.1 = w.1
      · rw [if_pos hvd]
        have hc : (st.idleWorkerRequests w.1 ++ [w]).count v =
            (st.idleWorkerRequests v.1).count v := by
          rw [List.count_append, hvd, List.count_cons_of_ne hvw, List.count_nil,
            Nat.add_zero]
        rw [hc]
        exact h2 v hv
      · rw [if_neg hvd]
        exact h2 v hv

lemma completionCallback_eq (w : SlotId) (c : StatusCode) (st : NetState) :
    completionCallback w c st =
      if st.terminate = true
      then updIdle (setWorkerTask (setWorkerStatus st w (some c)) w none) w.1
            ((setWorkerTask (setWorkerStatus st w (some c)) w none).idleWorkerRequests w.1
              ++ [w])
      else ScheduleToWorkerInferRequest
            (updIdle (setWorkerTask (setWorkerStatus st w (some c)) w none) w.1
              ((setWorkerTask (setWorkerStatus st w (some c)) w none).idleWorkerRequests w.1
                ++ [w])) := rfl

lemma completionCallback_inv {st : NetState} (hInv : SlotInvariant st)
    {w : SlotId} (c : StatusCode) (hw : w ∈ st.workerSlots)
    (hb : (st.workerTask w).isSome = true) :
    SlotInvariant (completionCallback w c st) := by
  rw [completionCallback_eq]
  split
  · exact SlotInvariant_requeue hInv w c hw hb
  · exact ScheduleToWorkerInferRequest_inv (SlotInvariant_requeue hInv w c hw hb)

/-- `SetConfig` only ever changes the registry and the stored
configuration map. -/
lemma SetConfig_fields (parseMetaDevices : String → List DeviceInformation)
    (cfg : List (String × String)) (st : NetState) :
    (SetConfig parseMetaDevices cfg st).1.idleWorkerRequests = st.idleWorkerRequests ∧
    (SetConfig parseMetaDevices cfg st).1.workerSlots = st.workerSlots ∧
    (SetConfig parseMetaDevices cfg st).1.workerTask = st.workerTask ∧
    (SetConfig parseMetaDevices cfg st).1.terminate = st.terminate ∧
    (SetConfig parseMetaDevices cfg st).1.inferPipelineTasks = st.inferPipelineTasks ∧
    (SetConfig parseMetaDevices cfg st).1.schedulerCalls = st.schedulerCalls ∧
    (SetConfig parseMetaDevices cfg st).1.networksPerDevice = st.networksPerDevice := by
  unfold SetConfig
  rcases lookupKey KEY_MULTI_DEVICE_PRIORITIES cfg with _ | v
  · exact ⟨rfl, rfl, rfl, rfl, rfl, rfl, rfl⟩
  · simp only []
    split
    · exact ⟨rfl, rfl, rfl, rfl, rfl, rfl, rfl⟩
    · split
      · exact ⟨rfl, rfl, rfl, rfl, rfl, rfl, rfl⟩
      · split
        · exact ⟨rfl, rfl, rfl, rfl, rfl, rfl, rfl⟩
        · exact ⟨rfl, rfl, rfl, rfl, rfl, rfl, rfl⟩

lemma SetConfig_inv (parseMetaDevices : String → List DeviceInformation)
    (cfg : List (String × String)) {st : NetState} (hInv : SlotInvariant st) :
    SlotInvariant (SetConfig parseMetaDevices cfg st).1 := by
  obtain ⟨hI, hS, hT, _⟩ := SetConfig_fields parseMetaDevices cfg st
  exact SlotInvariant_of_fields hI hS hT hInv

lemma networkDestructor_inv {st : NetState} (hInv : SlotInvariant st) :
    SlotInvariant (networkDestructor st) :=
  SlotInvariant_of_fields rfl rfl rfl hInv

/-- Every state reachable from a successful construction satisfies the
slot invariant. -/
lemma Reachable_SlotInvariant {networkDevices : List DeviceInformation}
    {networks : List (DeviceName × ExecutableNetwork)} {cfg : List (String × String)}
    {st : NetState} (hnodup : (networks.map Prod.fst).Nodup)
    (hr : Reachable networkDevices networks cfg st) : SlotInvariant st := by
  induction hr with
  | init st h => exact construct_SlotInvariant networks networkDevices cfg st hnodup h
  | step st st' _ hs ih =>
    cases hs with
    | runStep t st => exact run_inv t ih
    | completeStep w status st hw hb => exact completionCallback_inv ih status hw hb
    | setConfigStep parseMetaDevices cfg' st => exact SetConfig_inv parseMetaDevices cfg' ih
    | destructStep st => exact networkDestructor_inv ih

/-! ### Behaviour of the task queue under scheduling -/

lemma invokeTask_fields (t : Task) (st : NetState) :
    (invokeTask t st).inferPipelineTasks = st.inferPipelineTasks ∧
    (invokeTask t st).idleWorkerRequests = st.idleWorkerRequests ∧
    (invokeTask t st).thisWorkerInferRequest = st.thisWorkerInferRequest ∧
    (invokeTask t st).terminate = st.terminate := by
  unfold invokeTask
  split
  · exact ⟨rfl, rfl, rfl, rfl⟩
  · exact ⟨rfl, rfl, rfl, rfl⟩

/-- One pass of the scheduling loop pops at most one pending task, and
what remains is a tail of the original queue. -/
lemma scheduleLoop_tasks (ds : List DeviceInformation) (st : NetState) :
    (scheduleLoop ds st).inferPipelineTasks = st.inferPipelineTasks ∨
    ∃ t, st.inferPipelineTasks = t :: (scheduleLoop ds st).inferPipelineTasks := by
  induction ds generalizing st with
  | nil => exact Or.inl rfl
  | cons device rest ih =>
    rcases hq : st.idleWorkerRequests device.deviceName with _ | ⟨w, q⟩
    · rw [scheduleLoop_cons_noidle device rest st hq]
      exact ih st
    · rcases ht : st.inferPipelineTasks with _ | ⟨t, ts⟩
      · rw [scheduleLoop_cons_rotate device rest st w q hq ht]
        rcases ih (updIdle st device.deviceName (q ++ [w])) with h | ⟨u, hu⟩
        · exact Or.inl (h.trans ((updIdle_tasks st device.deviceName (q ++ [w])).trans ht))
        · refine Or.inr ⟨u, ?_⟩
          rw [updIdle_tasks, ht] at hu
          exact hu
      · rw [scheduleLoop_cons_pair device rest st w q t ts hq ht]
        refine Or.inr ⟨t, ?_⟩
        rw [(invokeTask_fields t _).1]

/-- When the pending queue is empty, a whole scheduling pass binds
nothing: the queue stays empty, no slot's binding changes, the
thread-affinity pointer is untouched, and every idle queue keeps exactly
its slots (each examined device's queue is merely rotated by one). -/
lemma scheduleLoop_empty_tasks (ds : List DeviceInformation) (st : NetState)
    (h : st.inferPipelineTasks = []) :
    (scheduleLoop ds st).inferPipelineTasks = [] ∧
    (scheduleLoop ds st).workerTask = st.workerTask ∧
    (scheduleLoop ds st).thisWorkerInferRequest = st.thisWorkerInferRequest ∧
    ∀ d, ((scheduleLoop ds st).idleWorkerRequests d).Perm (st.idleWorkerRequests d) := by
  induction ds generalizing st with
  | nil => exact ⟨h, rfl, rfl, fun d => List.Perm.refl _⟩
  | cons device rest ih =>
    rcases hq : st.idleWorkerRequests device.deviceName with _ | ⟨w, q⟩
    · rw [scheduleLoop_cons_noidle device rest st hq]
      exact ih st h
    · rw [scheduleLoop_cons_rotate device rest st w q hq h]
      obtain ⟨ha, hb, hc, hd⟩ := ih (updIdle st device.deviceName (q ++ [w])) (by simpa using h)
      refine ⟨ha, by simpa using hb, by simpa using hc, ?_⟩
      intro d
      refine (hd d).trans ?_
      simp only [updIdle_idle]
      by_cases hdd : d = device.deviceName
      · rw [if_pos hdd, hdd, hq]
        exact List.perm_append_comm
      · rw [if_neg hdd]

/-! ### The termination flag -/

lemma ScheduleToWorkerInferRequest_terminate (st : NetState) :
    (ScheduleToWorkerInferRequest st).terminate = st.terminate :=
  (scheduleLoop_const _ _).1

lemma ScheduleToWorkerInferRequest_calls (st : NetState) :
    (ScheduleToWorkerInferRequest st).schedulerCalls = st.schedulerCalls + 1 :=
  (scheduleLoop_const _ _).2.2.2.2.2.2

lemma completionCallback_terminate (w : SlotId) (c : StatusCode) (st : NetState) :
    (completionCallback w c st).terminate = st.terminate := by
  rw [completionCallback_eq]
  split
  · rfl
  · exact ScheduleToWorkerInferRequest_terminate _

lemma run_terminate (t : Task) (st : NetState) :
    (run t st).terminate = st.terminate := by
  unfold run
  split
  · rfl
  · exact ScheduleToWorkerInferRequest_terminate _

/-- Once the termination flag is set, no environment step ever clears
it. -/
lemma Step_preserves_terminate {st st' : NetState} (h : st.terminate = true)
    (hs : Step st st') : st'.terminate = true := by
  cases hs with
  | runStep t st => rw [run_terminate]; exact h
  | completeStep w status st hw hb => rw [completionCallback_terminate]; exact h
  | setConfigStep parseMetaDevices cfg st =>
      rw [(SetConfig_fields parseMetaDevices cfg st).2.2.2.1]; exact h
  | destructStep st => rfl

/-- With the termination flag set, the completion callback reduces to
recording the status, clearing the binding and letting the guard requeue
the slot; the scheduler is not invoked. -/
lemma completionCallback_of_terminate (w : SlotId) (c : StatusCode) (st : NetState)
    (h : st.terminate = true) :
    completionCallback w c st =
      updIdle (setWorkerTask (setWorkerStatus st w (some c)) w none) w.1
        (st.idleWorkerRequests w.1 ++ [w]) := by
  rw [completionCallback_eq, if_pos h]
  rfl

/-! ### Lookup and update of association lists -/

lemma lookupKey_setKey_self {β : Type} (k : String) (v : β) (l : List (String × β)) :
    lookupKey k (setKey k v l) = some v := by
  induction l with
  | nil => simp [setKey, lookupKey]
  | cons p rest ih =>
    by_cases h : p.1 = k
    · simp [setKey, lookupKey, h]
    · simp [setKey, lookupKey, h, ih]

lemma lookupKey_setKey_ne {β : Type} (k k2 : String) (v : β) (l : List (String × β))
    (h : k2 ≠ k) : lookupKey k2 (setKey k v l) = lookupKey k2 l := by
  induction l with
  | nil => simp [setKey, lookupKey, Ne.symm h]
  | cons p rest ih =>
    by_cases hp : p.1 = k
    · simp [setKey, lookupKey, hp, Ne.symm h]
    · simp [setKey, lookupKey, hp, ih]

/-! ### Unfolding equations of SetConfig -/

lemma SetConfig_eq_none (parseMetaDevices : String → List DeviceInformation)
    (cfg : List (String × String)) (st : NetState)
    (h : lookupKey KEY_MULTI_DEVICE_PRIORITIES cfg = none) :
    SetConfig parseMetaDevices cfg st = (st, some .NotImplemented) := by
  unfold SetConfig
  rw [h]

lemma SetConfig_eq_some (parseMetaDevices : String → List DeviceInformation)
    (cfg : List (String × String)) (st : NetState) (v : String)
    (h : lookupKey KEY_MULTI_DEVICE_PRIORITIES cfg = some v) :
    SetConfig parseMetaDevices cfg st =
      (if 1 < cfg.length then (st, some .NotImplemented)
       else if (parseMetaDevices v).any (fun d => d.numRequestsPerDevices != -1) then
         (st, some .NotImplemented)
       else if (parseMetaDevices v).any
           (fun d => (lookupKey d.deviceName st.networksPerDevice).isNone) then
         (st, some .NotFound)
       else
         ({ st with
              devicePriorities := parseMetaDevices v
              config := setKey KEY_MULTI_DEVICE_PRIORITIES v st.config },
           none)) := by
  unfold SetConfig
  rw [h]

/-- Every failing `SetConfig` call leaves the state untouched: all throws
in the source occur before any member is assigned. -/
lemma SetConfig_failure_unchanged (parseMetaDevices : String → List DeviceInformation)
    (cfg : List (String × String)) (st : NetState) (e : IEError)
    (he : (SetConfig parseMetaDevices cfg st).2 = some e) :
    (SetConfig parseMetaDevices cfg st).1 = st := by
  rcases h : lookupKey KEY_MULTI_DEVICE_PRIORITIES cfg with _ | v
  · rw [SetConfig_eq_none parseMetaDevices cfg st h]
  · rw [SetConfig_eq_some parseMetaDevices cfg st v h]
    rw [SetConfig_eq_some parseMetaDevices cfg st v h] at he
    split_ifs with h1 h2 h3
    · rfl
    · rfl
    · rfl
    · rw [if_neg h1, if_neg h2, if_neg h3] at he
      cases he

/-- A successful `SetConfig` replaces the registry with the parsed device
list and updates the stored priorities entry, and nothing else. -/
lemma SetConfig_success (parseMetaDevices : String → List DeviceInformation)
    (cfg : List (String × String)) (st : NetState) (v : String)
    (hv : lookupKey KEY_MULTI_DEVICE_PRIORITIES cfg = some v)
    (hok : (SetConfig parseMetaDevices cfg st).2 = none) :
    (SetConfig parseMetaDevices cfg st).1 =
      { st with
          devicePriorities := parseMetaDevices v
          config := setKey KEY_MULTI_DEVICE_PRIORITIES v st.config } := by
  rw [SetConfig_eq_some parseMetaDevices cfg st v hv] at hok ⊢
  split_ifs with h1 h2 h3
  · rw [if_pos h1] at hok
    cases hok
  · rw [if_neg h1, if_pos h2] at hok
    cases hok
  · rw [if_neg h1, if_neg h2, if_pos h3] at hok
    cases hok
  · rfl

/-! ### Construction: per-device pool sizes and failure -/

/-- Devices the allocation loop never processes keep their idle queue. -/
lemma constructWorkers_untouched (prios : List DeviceInformation) :
    ∀ (nets : List (DeviceName × ExecutableNetwork)) (st st' : NetState) (d : DeviceName),
      (∀ p ∈ nets, p.1 ≠ d) →
      constructWorkers prios nets st = .ok st' →
      st'.idleWorkerRequests d = st.idleWorkerRequests d
  | [], st, st', d, _, h => by
      rw [constructWorkers] at h
      cases h
      rfl
  | (device, network) :: rest, st, st', d, hne, h => by
      rcases ho : network.optimalNumberOfInferRequests with _ | o
      · rw [constructWorkers_cons_err prios device network rest st ho] at h
        cases h
      · rw [constructWorkers_cons_ok prios device network rest st o ho] at h
        have := constructWorkers_untouched prios rest _ st' d
          (fun p hp => hne p (List.mem_cons_of_mem _ hp)) h
        rw [this]
        simp only [updIdle_idle]
        have hnd : d ≠ device :=
          fun hc => hne (device, network) (List.mem_cons_self _ _) hc.symm
        rw [if_neg hnd]

/-- For every admitted device, the allocation loop queries the optimal
request count (so it must be reported) and leaves the device's idle queue
holding exactly the `numRequestsFor` freshly allocated slots, in creation
order. -/
lemma constructWorkers_idle (prios : List DeviceInformation) :
    ∀ (nets : List (DeviceName × ExecutableNetwork)) (st st' : NetState),
      (nets.map Prod.fst).Nodup →
      (∀ p ∈ nets, st.idleWorkerRequests p.1 = []) →
      constructWorkers prios nets st = .ok st' →
      ∀ p ∈ nets, ∃ o, p.2.optimalNumberOfInferRequests = some o ∧
        st'.idleWorkerRequests p.1 = mkWorkerSlots p.1 (numRequestsFor prios p.1 o)
  | [], st, st', _, _, _, p, hp => absurd hp (List.not_mem_nil p)
  | (device, network) :: rest, st, st', hnodup, hempty, h, p, hp => by
      rcases ho : network.optimalNumberOfInferRequests with _ | o
      · rw [constructWorkers_cons_err prios device network rest st ho] at h
        cases h
      · rw [constructWorkers_cons_ok prios device network rest st o ho] at h
        have hnodup' : ((device, network) :: rest).map Prod.fst =
            device :: rest.map Prod.fst := rfl
        rw [hnodup'] at hnodup
        have hdnotin : device ∉ rest.map Prod.fst := (List.nodup_cons.1 hnodup).1
        rcases List.mem_cons.1 hp with heq | hrest
        · subst heq
          refine ⟨o, ho, ?_⟩
          have hne : ∀ r ∈ rest, r.1 ≠ device := by
            intro r hr hc
            rw [← hc] at hdnotin
            exact hdnotin (List.mem_map_of_mem Prod.fst hr)
          rw [constructWorkers_untouched prios rest _ st' device hne h]
          simp only [updIdle_idle]
          simp [hempty (device, network) (List.mem_cons_self _ _)]
        · refine constructWorkers_idle prios rest _ st' (List.nodup_cons.1 hnodup).2
            ?_ h p hrest
          intro r hr
          simp only [updIdle_idle]
          have hnr : r.1 ≠ device := by
            intro hc
            rw [← hc] at hdnotin
            exact hdnotin (List.mem_map_of_mem Prod.fst hr)
          rw [if_neg hnr]
          exact hempty r (List.mem_cons_of_mem _ hr)

/-- If any admitted device cannot report its optimal request count, the
allocation loop fails. -/
lemma constructWorkers_err (prios : List DeviceInformation) :
    ∀ (nets : List (DeviceName × ExecutableNetwork)) (st : NetState),
      (∃ p ∈ nets, p.2.optimalNumberOfInferRequests = none) →
      constructWorkers prios nets st = .error .GeneralError
  | [], _, hex => by
      obtain ⟨p, hp, _⟩ := hex
      exact absurd hp (List.not_mem_nil p)
  | (device, network) :: rest, st, hex => by
      rcases ho : network.optimalNumberOfInferRequests with _ | o
      · exact constructWorkers_cons_err prios device network rest st ho
      · rw [constructWorkers_cons_ok prios device network rest st o ho]
        obtain ⟨p, hp, hpo⟩ := hex
        rcases List.mem_cons.1 hp with heq | hrest
        · subst heq
          rw [ho] at hpo
          cases hpo
        · exact constructWorkers_err prios rest _ ⟨p, hrest, hpo⟩

lemma numRequestsFor_eq_none (prios : List DeviceInformation) (device : DeviceName)
    (o : Nat) (h : prios.find? (fun d => d.deviceName = device) = none) :
    numRequestsFor prios device o = o := by
  unfold numRequestsFor
  rw [h]

lemma numRequestsFor_eq_some (prios : List DeviceInformation) (device : DeviceName)
    (o : Nat) (it : DeviceInformation)
    (h : prios.find? (fun d => d.deviceName = device) = some it) :
    numRequestsFor prios device o =
      if it.numRequestsPerDevices = -1 then o
      else (it.numRequestsPerDevices % (2 ^ 32 : Int)).toNat := by
  unfold numRequestsFor
  rw [h]

/-- The override characterization of `numRequestsFor`: a present
non-sentinel override in `int` range wins; otherwise the reported optimal
count is used. -/
lemma numRequestsFor_spec (prios : List DeviceInformation) (device : DeviceName)
    (o : Nat) :
    (∀ it, prios.find? (fun d => d.deviceName = device) = some it →
      (it.numRequestsPerDevices = -1 → numRequestsFor prios device o = o) ∧
      (0 ≤ it.numRequestsPerDevices → it.numRequestsPerDevices < 2 ^ 32 →
        it.numRequestsPerDevices ≠ -1 →
        numRequestsFor prios device o = it.numRequestsPerDevices.toNat)) ∧
    (prios.find? (fun d => d.deviceName = device) = none →
      numRequestsFor prios device o = o) := by
  constructor
  · intro it hit
    constructor
    · intro hsent
      rw [numRequestsFor_eq_some prios device o it hit, if_pos hsent]
    · intro hge hlt hne
      rw [numRequestsFor_eq_some prios device o it hit, if_neg hne,
        Int.emod_eq_of_lt hge hlt]
  · intro hnone
    exact numRequestsFor_eq_none prios device o hnone

/-! ### The aggregate concurrency metric -/

lemma specAggregateCapacity_eq (st : NetState) :
    specAggregateCapacity st = sumOptimal st.networksPerDevice := rfl

lemma getMetricLoop_cons_none (device : DeviceName) (network : ExecutableNetwork)
    (rest : List (DeviceName × ExecutableNetwork)) (res : Nat)
    (ho : network.optimalNumberOfInferRequests = none) :
    getMetricLoop ((device, network) :: rest) res = .error .GeneralError := by
  rw [getMetricLoop, ho]

lemma getMetricLoop_cons_some (device : DeviceName) (network : ExecutableNetwork)
    (rest : List (DeviceName × ExecutableNetwork)) (res v : Nat)
    (ho : network.optimalNumberOfInferRequests = some v) :
    getMetricLoop ((device, network) :: rest) res =
      getMetricLoop rest ((res + v) % 2 ^ 32) := by
  rw [getMetricLoop, ho]

/-- When every device reports, the metric loop computes the sum of the
reports modulo `2 ^ 32`, starting from any in-range accumulator. -/
lemma getMetricLoop_ok :
    ∀ (nets : List (DeviceName × ExecutableNetwork)) (res : Nat),
      res < 2 ^ 32 →
      (∀ p ∈ nets, (p.2.optimalNumberOfInferRequests).isSome = true) →
      getMetricLoop nets res = .ok ((res + sumOptimal nets) % 2 ^ 32)
  | [], res, hres, _ => by
      rw [getMetricLoop]
      unfold sumOptimal
      simp only [List.map_nil, List.sum_nil, Nat.add_zero]
      rw [Nat.mod_eq_of_lt hres]
  | (device, network) :: rest, res, hres, hall => by
      rcases ho : network.optimalNumberOfInferRequests with _ | v
      · have := hall (device, network) (List.mem_cons_self _ _)
        rw [ho] at this
        cases this
      · rw [getMetricLoop_cons_some device network rest res v ho]
        rw [getMetricLoop_ok rest ((res + v) % 2 ^ 32)
          (Nat.mod_lt _ (by positivity))
          (fun p hp => hall p (List.mem_cons_of_mem _ hp))]
        have hsum : sumOptimal ((device, network) :: rest) = v + sumOptimal rest := by
          unfold sumOptimal
          simp [ho]
        rw [hsum, Nat.mod_add_mod, Nat.add_assoc]

/-- If some device cannot report, the metric loop fails with the general
error. -/
lemma getMetricLoop_err :
    ∀ (nets : List (DeviceName × ExecutableNetwork)) (res : Nat),
      (∃ p ∈ nets, p.2.optimalNumberOfInferRequests = none) →
      getMetricLoop nets res = .error .GeneralError
  | [], _, hex => by
      obtain ⟨p, hp, _⟩ := hex
      exact absurd hp (List.not_mem_nil p)
  | (device, network) :: rest, res, hex => by
      rcases ho : network.optimalNumberOfInferRequests with _ | v
      · exact getMetricLoop_cons_none device network rest res ho
      · rw [getMetricLoop_cons_some device network rest res v ho]
        obtain ⟨p, hp, hpo⟩ := hex
        rcases List.mem_cons.1 hp with heq | hrest
        · subst heq
          rw [ho] at hpo
          cases hpo
        · exact getMetricLoop_err rest _ ⟨p, hrest, hpo⟩

/-! ### Pairing publishes the slot in the thread-affinity pointer -/

/-- Either a scheduling pass changes no slot binding at all, or it binds
the head pending task to exactly one slot — the one published in
`_thisWorkerInferRequest` — leaving every other binding untouched. -/
lemma scheduleLoop_binding (ds : List DeviceInformation) (st : NetState) :
    (∀ v, (scheduleLoop ds st).workerTask v = st.workerTask v) ∨
    (∃ w t, (scheduleLoop ds st).thisWorkerInferRequest = some w ∧
      (scheduleLoop ds st).workerTask w = some t ∧
      (∀ v, v ≠ w → (scheduleLoop ds st).workerTask v = st.workerTask v) ∧
      st.inferPipelineTasks = t :: (scheduleLoop ds st).inferPipelineTasks) := by
  induction ds generalizing st with
  | nil => exact Or.inl (fun v => rfl)
  | cons device rest ih =>
    rcases hq : st.idleWorkerRequests device.deviceName with _ | ⟨w, q⟩
    · rw [scheduleLoop_cons_noidle device rest st hq]
      exact ih st
    · rcases ht : st.inferPipelineTasks with _ | ⟨t, ts⟩
      · rw [scheduleLoop_cons_rotate device rest st w q hq ht]
        rcases ih (updIdle st device.deviceName (q ++ [w])) with h | ⟨w', t', h1, h2, h3, h4⟩
        · exact Or.inl h
        · refine Or.inr ⟨w', t', h1, h2, h3, ?_⟩
          rw [updIdle_tasks, ht] at h4
          exact h4
      · rw [scheduleLoop_cons_pair device rest st w q t ts hq ht]
        have hred : invokeTask t { updIdle st device.deviceName q with
            inferPipelineTasks := ts, thisWorkerInferRequest := some w } =
          setWorkerTask { updIdle st device.deviceName q with
            inferPipelineTasks := ts, thisWorkerInferRequest := some w } w (some t) := rfl
        rw [hred]
        refine Or.inr ⟨w, t, rfl, ?_, ?_, ?_⟩
        · rw [setWorkerTask_task, if_pos rfl]
        · intro v hv
          rw [setWorkerTask_task, if_neg hv]
          rfl
        · rw [setWorkerTask_tasks]

/-- What a scheduling pass does when the first device of the snapshot has
an idle slot and a task is pending: the head task is bound to that
device's head idle slot, the slot is published in the thread-affinity
pointer, the device's queue loses its head, and every other device's
queue and every other slot's binding are untouched. -/
lemma scheduleLoop_pair_head (d1 d2 : DeviceInformation) (rest : List DeviceInformation)
    (S : NetState) (w1 : SlotId) (q1 : List SlotId) (t : Task) (ts : List Task)
    (hq1 : S.idleWorkerRequests d1.deviceName = w1 :: q1)
    (ht : S.inferPipelineTasks = t :: ts)
    (hne : d2.deviceName ≠ d1.deviceName) :
    (scheduleLoop (d1 :: d2 :: rest) S).workerTask w1 = some t ∧
    (scheduleLoop (d1 :: d2 :: rest) S).thisWorkerInferRequest = some w1 ∧
    (scheduleLoop (d1 :: d2 :: rest) S).inferPipelineTasks = ts ∧
    (scheduleLoop (d1 :: d2 :: rest) S).idleWorkerRequests d1.deviceName = q1 ∧
    (scheduleLoop (d1 :: d2 :: rest) S).idleWorkerRequests d2.deviceName =
      S.idleWorkerRequests d2.deviceName ∧
    (∀ v, v ≠ w1 →
      (scheduleLoop (d1 :: d2 :: rest) S).workerTask v = S.workerTask v) := by
  rw [scheduleLoop_cons_pair d1 (d2 :: rest) S w1 q1 t ts hq1 ht]
  have hred : invokeTask t { updIdle S d1.deviceName q1 with
      inferPipelineTasks := ts, thisWorkerInferRequest := some w1 } =
    setWorkerTask { updIdle S d1.deviceName q1 with
      inferPipelineTasks := ts, thisWorkerInferRequest := some w1 } w1 (some t) := rfl
  rw [hred]
  refine ⟨?_, rfl, ?_, ?_, ?_, ?_⟩
  · rw [setWorkerTask_task, if_pos rfl]
  · rw [setWorkerTask_tasks]
  · rw [setWorkerTask_idle]
    show (if d1.deviceName = d1.deviceName then q1 else S.idleWorkerRequests d1.deviceName) = q1
    rw [if_pos rfl]
  · rw [setWorkerTask_idle]
    show (if d2.deviceName = d1.deviceName then q1 else S.idleWorkerRequests d2.deviceName) =
      S.idleWorkerRequests d2.deviceName
    rw [if_neg hne]
  · intro v hv
    rw [setWorkerTask_task, if_neg hv]
    rfl

/-! ## The claims -/

/-- C1.  For every reachable state of the network, every worker slot is in
exactly one of two states — bound to a task, or a member of its own
device's idle worker queue — never both and never neither; construction,
`run`/scheduler pairing and completion handling all preserve this, so no
slot is ever lost or duplicated. -/
theorem C1_slot_accounting (networkDevices : List DeviceInformation)
    (networks : List (DeviceName × ExecutableNetwork)) (cfg : List (String × String))
    (st : NetState) (hnodup : (networks.map Prod.fst).Nodup)
    (hr : Reachable networkDevices networks cfg st) : SlotInvariant st :=
  Reachable_SlotInvariant hnodup hr

/-- C1 witness: the invariant holds in a concrete state reached by
constructing a two-device network, submitting two tasks and completing a
slot. -/
theorem C1_slot_accounting_witness :
    SlotInvariant (completionCallback ("CPU", 0) 0 (run 11 (run 10 exampleState))) :=
  C1_slot_accounting exDevices exNetworks exConfig _ (by decide)
    (Reachable.step _ _
      (Reachable.step _ _
        (Reachable.step _ _ (Reachable.init exampleState rfl)
          (Step.runStep 10 exampleState))
        (Step.runStep 11 (run 10 exampleState)))
      (Step.completeStep ("CPU", 0) 0 (run 11 (run 10 exampleState)) (by decide)
        (by decide)))

/-- C2.  A scheduler invocation traverses the registry snapshot in order
and binds at most one task: the pending-task queue loses at most its head.
Moreover, when the rank-0 device D1 and the rank-1 device D2 both have an
idle slot and a task is pending, the task is bound to D1's first idle
slot, D2's queue is untouched and no other slot's binding changes — the
task is never bound to D2. -/
theorem C2_priority_order (st : NetState) :
    ((ScheduleToWorkerInferRequest st).inferPipelineTasks = st.inferPipelineTasks ∨
      ∃ t, st.inferPipelineTasks =
        t :: (ScheduleToWorkerInferRequest st).inferPipelineTasks) ∧
    (∀ d1 d2 rest w1 q1 t ts,
      st.devicePriorities = d1 :: d2 :: rest →
      st.idleWorkerRequests d1.deviceName = w1 :: q1 →
      st.idleWorkerRequests d2.deviceName ≠ [] →
      st.inferPipelineTasks = t :: ts →
      d2.deviceName ≠ d1.deviceName →
      (ScheduleToWorkerInferRequest st).workerTask w1 = some t ∧
      (ScheduleToWorkerInferRequest st).thisWorkerInferRequest = some w1 ∧
      (ScheduleToWorkerInferRequest st).inferPipelineTasks = ts ∧
      (ScheduleToWorkerInferRequest st).idleWorkerRequests d1.deviceName = q1 ∧
      (ScheduleToWorkerInferRequest st).idleWorkerRequests d2.deviceName =
        st.idleWorkerRequests d2.deviceName ∧
      (∀ v, v ≠ w1 →
        (ScheduleToWorkerInferRequest st).workerTask v = st.workerTask v)) := by
  constructor
  · exact scheduleLoop_tasks st.devicePriorities _
  · intro d1 d2 rest w1 q1 t ts hp hq1 _ ht hne
    unfold ScheduleToWorkerInferRequest
    rw [hp]
    exact scheduleLoop_pair_head d1 d2 rest _ w1 q1 t ts hq1 ht hne

/-- C2 witness: with registry order [A, B], both devices idle and task 7
pending, the task goes to A's slot and B's queue is untouched. -/
theorem C2_priority_order_witness :
    (ScheduleToWorkerInferRequest stPrio).workerTask ("A", 0) = some 7 ∧
    (ScheduleToWorkerInferRequest stPrio).idleWorkerRequests "B" =
      stPrio.idleWorkerRequests "B" :=
  ⟨((C2_priority_order stPrio).2
      { deviceName := "A", numRequestsPerDevices := -1 }
      { deviceName := "B", numRequestsPerDevices := -1 }
      [] ("A", 0) [] 7 [] rfl rfl (by decide) rfl (by decide)).1,
   ((C2_priority_order stPrio).2
      { deviceName := "A", numRequestsPerDevices := -1 }
      { deviceName := "B", numRequestsPerDevices := -1 }
      [] ("A", 0) [] 7 [] rfl rfl (by decide) rfl (by decide)).2.2.2.2.1⟩

/-- C3 counterexample: in a state with registry [A, B], an idle slot on A,
two idle slots on B and an empty pending-task queue, the claimed behaviour
— "the scan stops at A, no later device is examined" — is false: the pass
also pops-and-requeues on B, observably rotating B's idle queue. -/
theorem C3_scan_stop_counterexample :
    stEmptyTasks.inferPipelineTasks = [] ∧
    stEmptyTasks.idleWorkerRequests "A" = [("A", 0)] ∧
    stEmptyTasks.idleWorkerRequests "B" = [("B", 0), ("B", 1)] ∧
    (ScheduleToWorkerInferRequest stEmptyTasks).idleWorkerRequests "B" =
      [("B", 1), ("B", 0)] ∧
    (ScheduleToWorkerInferRequest stEmptyTasks).idleWorkerRequests "B" ≠
      stEmptyTasks.idleWorkerRequests "B" := by
  refine ⟨rfl, rfl, rfl, ?_, ?_⟩ <;> decide

/-- C3 amended: if an idle slot is popped while the pending-task queue is
empty, the slot is returned to its queue immediately (nothing is lost:
every idle queue keeps exactly its slots, as a rotation), no binding is
made and the pointer is untouched — but the scan does *not* stop: it
continues through the remaining devices, rotating each nonempty idle
queue in the same way. -/
theorem C3_empty_queue_requeues (st : NetState)
    (h : st.inferPipelineTasks = []) :
    (ScheduleToWorkerInferRequest st).inferPipelineTasks = [] ∧
    (ScheduleToWorkerInferRequest st).workerTask = st.workerTask ∧
    (ScheduleToWorkerInferRequest st).thisWorkerInferRequest =
      st.thisWorkerInferRequest ∧
    ∀ d, ((ScheduleToWorkerInferRequest st).idleWorkerRequests d).Perm
      (st.idleWorkerRequests d) := by
  unfold ScheduleToWorkerInferRequest
  exact scheduleLoop_empty_tasks st.devicePriorities _ h

/-- C3 witness: the amended statement at the concrete state — B's queue
after the pass is a permutation of what it was. -/
theorem C3_empty_queue_requeues_witness :
    ((ScheduleToWorkerInferRequest stEmptyTasks).idleWorkerRequests "B").Perm
      (stEmptyTasks.idleWorkerRequests "B") :=
  (C3_empty_queue_requeues stEmptyTasks rfl).2.2.2 "B"

/-- C4.  `run`: with the termination flag set the call is a no-op — the
state, in particular the pending-task queue and the ghost count of
scheduler invocations, is exactly unchanged; otherwise the task is
appended to the pending-task queue and the scheduler is then invoked
exactly once. -/
theorem C4_run_semantics (t : Task) (st : NetState) :
    (st.terminate = true → run t st = st) ∧
    (st.terminate = false →
      run t st = ScheduleToWorkerInferRequest
        { st with inferPipelineTasks := st.inferPipelineTasks ++ [t] } ∧
      (run t st).schedulerCalls = st.schedulerCalls + 1) := by
  constructor
  · intro h
    unfold run
    rw [if_pos h]
  · intro h
    constructor
    · unfold run
      rw [if_neg (by rw [h]; exact Bool.false_ne_true)]
    · unfold run
      rw [if_neg (by rw [h]; exact Bool.false_ne_true)]
      rw [ScheduleToWorkerInferRequest_calls]

/-- C4 witness: at concrete states for both branches. -/
theorem C4_run_semantics_witness :
    run 5 stTerm = stTerm ∧
    (run 5 stPrio).schedulerCalls = stPrio.schedulerCalls + 1 :=
  ⟨(C4_run_semantics 5 stTerm).1 rfl, ((C4_run_semantics 5 stPrio).2 rfl).2⟩

/-- C5.  Once the termination flag is set, a completion-handler invocation
never invokes the scheduler (the ghost invocation count is unchanged, and
with it the pending-task queue), yet the completing slot is still returned
to its own device's idle worker queue by the guard's default requeue; and
no environment step ever clears the flag, so this holds for every later
completion as well. -/
theorem C5_no_dispatch_after_terminate (w : SlotId) (c : StatusCode) (st : NetState)
    (h : st.terminate = true) :
    (completionCallback w c st).schedulerCalls = st.schedulerCalls ∧
    (completionCallback w c st).idleWorkerRequests w.1 =
      st.idleWorkerRequests w.1 ++ [w] ∧
    (completionCallback w c st).inferPipelineTasks = st.inferPipelineTasks ∧
    (∀ st', Step st st' → st'.terminate = true) := by
  rw [completionCallback_of_terminate w c st h]
  refine ⟨rfl, ?_, rfl, fun st' hs => Step_preserves_terminate h hs⟩
  simp only [updIdle_idle]
  simp

/-- C5 witness: a terminated state with an in-flight slot; completing it
requeues the slot without any scheduler invocation even though a task is
pending. -/
theorem C5_no_dispatch_after_terminate_witness :
    (completionCallback ("A", 0) 0 stTerm).schedulerCalls = stTerm.schedulerCalls ∧
    (completionCallback ("A", 0) 0 stTerm).idleWorkerRequests "A" =
      stTerm.idleWorkerRequests "A" ++ [("A", 0)] ∧
    (completionCallback ("A", 0) 0 stTerm).inferPipelineTasks =
      stTerm.inferPipelineTasks :=
  ⟨(C5_no_dispatch_after_terminate ("A", 0) 0 stTerm rfl).1,
   (C5_no_dispatch_after_terminate ("A", 0) 0 stTerm rfl).2.1,
   (C5_no_dispatch_after_terminate ("A", 0) 0 stTerm rfl).2.2.1⟩

/-- C6 counterexample: reconfiguring with a list that contains a device
absent from the original admitted set (and no request-count override at
all) fails with the not-found error, not with the unsupported-config
(not-implemented) error the claim names — the error kind the source uses
for the request-count rejection. -/
theorem C6_unknown_device_counterexample :
    (∃ d ∈ exParse "GPU",
      lookupKey d.deviceName stCfg.networksPerDevice = none) ∧
    (∀ d ∈ exParse "GPU", d.numRequestsPerDevices = -1) ∧
    (SetConfig exParse [(KEY_MULTI_DEVICE_PRIORITIES, "GPU")] stCfg).2 =
      some IEError.NotFound ∧
    (SetConfig exParse [(KEY_MULTI_DEVICE_PRIORITIES, "GPU")] stCfg).2 ≠
      some IEError.NotImplemented := by
  refine ⟨?_, ?_, ?_, ?_⟩ <;> decide

/-- C6 amended: reconfiguration rejects a list that carries a per-device
request count with the unsupported-config (not-implemented) error, and a
list containing a device outside the original admitted set with the
not-found error; on every failure — these included — the state, in
particular the device priority registry, is left exactly as it was. -/
theorem C6_setconfig_rejections (parseMetaDevices : String → List DeviceInformation)
    (cfg : List (String × String)) (st : NetState) :
    (∀ e, (SetConfig parseMetaDevices cfg st).2 = some e →
      (SetConfig parseMetaDevices cfg st).1 = st) ∧
    (∀ v, lookupKey KEY_MULTI_DEVICE_PRIORITIES cfg = some v → ¬1 < cfg.length →
      ((parseMetaDevices v).any (fun d => d.numRequestsPerDevices != -1) = true →
        (SetConfig parseMetaDevices cfg st).2 = some IEError.NotImplemented) ∧
      ((parseMetaDevices v).any (fun d => d.numRequestsPerDevices != -1) = false →
        (parseMetaDevices v).any
          (fun d => (lookupKey d.deviceName st.networksPerDevice).isNone) = true →
        (SetConfig parseMetaDevices cfg st).2 = some IEError.NotFound)) := by
  constructor
  · exact fun e he => SetConfig_failure_unchanged parseMetaDevices cfg st e he
  · intro v hv hlen
    rw [SetConfig_eq_some parseMetaDevices cfg st v hv]
    constructor
    · intro hany
      rw [if_neg hlen, if_pos hany]
    · intro hno hunknown
      rw [if_neg hlen, if_neg (by rw [hno]; exact Bool.false_ne_true), if_pos hunknown]

/-- C6 witness: both rejection kinds at concrete inputs, with the registry
(indeed the whole state) unchanged. -/
theorem C6_setconfig_rejections_witness :
    (SetConfig exParse [(KEY_MULTI_DEVICE_PRIORITIES, "CPU4")] stCfg).2 =
      some IEError.NotImplemented ∧
    (SetConfig exParse [(KEY_MULTI_DEVICE_PRIORITIES, "GPU")] stCfg).2 =
      some IEError.NotFound ∧
    (SetConfig exParse [(KEY_MULTI_DEVICE_PRIORITIES, "GPU")] stCfg).1 = stCfg :=
  ⟨((C6_setconfig_rejections exParse [(KEY_MULTI_DEVICE_PRIORITIES, "CPU4")] stCfg).2
      "CPU4" rfl (by decide)).1 (by decide),
   ((C6_setconfig_rejections exParse [(KEY_MULTI_DEVICE_PRIORITIES, "GPU")] stCfg).2
      "GPU" rfl (by decide)).2 (by decide) (by decide),
   (C6_setconfig_rejections exParse [(KEY_MULTI_DEVICE_PRIORITIES, "GPU")] stCfg).1
      IEError.NotFound
      (((C6_setconfig_rejections exParse [(KEY_MULTI_DEVICE_PRIORITIES, "GPU")] stCfg).2
        "GPU" rfl (by decide)).2 (by decide) (by decide))⟩

/-- C7.  Construction: for every admitted device the slot count is the
caller-specified override when one exists, is not the `-1` sentinel and is
a genuine (in-range, non-negative) count, and the device's reported
optimal concurrency otherwise; exactly that many distinct worker slots are
allocated and all of them are pushed into the device's idle worker queue;
and construction fails whenever some device cannot report its optimal
concurrency. -/
theorem C7_construction (networkDevices : List DeviceInformation)
    (networks : List (DeviceName × ExecutableNetwork)) (cfg : List (String × String)) :
    (∀ st, (networks.map Prod.fst).Nodup →
      MultiDeviceExecutableNetwork networks networkDevices cfg = .ok st →
      ∀ p ∈ networks, ∃ o, p.2.optimalNumberOfInferRequests = some o ∧
        st.idleWorkerRequests p.1 =
          mkWorkerSlots p.1 (numRequestsFor networkDevices p.1 o) ∧
        (st.idleWorkerRequests p.1).length = numRequestsFor networkDevices p.1 o ∧
        (st.idleWorkerRequests p.1).Nodup) ∧
    ((∃ p ∈ networks, p.2.optimalNumberOfInferRequests = none) →
      MultiDeviceExecutableNetwork networks networkDevices cfg = .error .GeneralError) ∧
    (∀ device o it, networkDevices.find? (fun d => d.deviceName = device) = some it →
      (it.numRequestsPerDevices = -1 → numRequestsFor networkDevices device o = o) ∧
      (0 ≤ it.numRequestsPerDevices → it.numRequestsPerDevices < 2 ^ 32 →
        it.numRequestsPerDevices ≠ -1 →
        numRequestsFor networkDevices device o = it.numRequestsPerDevices.toNat)) ∧
    (∀ device o, networkDevices.find? (fun d => d.deviceName = device) = none →
      numRequestsFor networkDevices device o = o) := by
  refine ⟨?_, ?_, ?_, ?_⟩
  · intro st hnodup h p hp
    obtain ⟨o, ho, hq⟩ := constructWorkers_idle networkDevices networks _ st hnodup
      (fun p _ => rfl) h p hp
    refine ⟨o, ho, hq, ?_, ?_⟩
    · rw [hq]
      unfold mkWorkerSlots
      rw [List.length_map, List.length_range]
    · rw [hq]
      exact nodup_mkWorkerSlots _ _
  · intro hex
    exact constructWorkers_err networkDevices networks _ hex
  · intro device o it hit
    exact (numRequestsFor_spec networkDevices device o).1 it hit
  · intro device o hnone
    exact (numRequestsFor_spec networkDevices device o).2 hnone

/-- C7 witness: in the constructed example state, the GPU device (override
3, reported optimal 4) ends with exactly the three slots
`("GPU",0) ("GPU",1) ("GPU",2)` in its idle queue. -/
theorem C7_construction_witness :
    exampleState.idleWorkerRequests "GPU" = [("GPU", 0), ("GPU", 1), ("GPU", 2)] := by
  obtain ⟨o, ho, hq, _, _⟩ := (C7_construction exDevices exNetworks exConfig).1
    exampleState (by decide) rfl
    ("GPU", { optimalNumberOfInferRequests := some 4, networkName := "net" })
    (by decide)
  have ho4 : o = 4 := by
    have := ho.symm
    injection this
  subst ho4
  rw [hq]
  decide

/-- C8 counterexample: the aggregate metric is accumulated in a 32-bit
unsigned integer; with two admitted devices each reporting `2 ^ 31`, the
code returns `0`, not the sum `2 ^ 32` the claim asserts. -/
theorem C8_metric_sum_counterexample :
    GetMetricOptimalNumberOfInferRequests stWrap = .ok 0 ∧
    specAggregateCapacity stWrap = 2 ^ 32 ∧
    GetMetricOptimalNumberOfInferRequests stWrap ≠
      .ok (specAggregateCapacity stWrap) := by
  refine ⟨?_, ?_, ?_⟩ <;> decide

/-- C8 amended: the aggregate concurrency metric equals the sum, over all
admitted devices, of each device's reported optimal concurrency — reduced
modulo `2 ^ 32` (the `unsigned int` accumulator), hence equal to the plain
sum whenever that sum fits in 32 bits; the query ignores the configured
overrides and the registry, and fails whenever some device cannot answer
the underlying query. -/
theorem C8_metric_mod (st : NetState) :
    ((∀ p ∈ st.networksPerDevice,
        (p.2.optimalNumberOfInferRequests).isSome = true) →
      GetMetricOptimalNumberOfInferRequests st =
        .ok (specAggregateCapacity st % 2 ^ 32)) ∧
    ((∃ p ∈ st.networksPerDevice, p.2.optimalNumberOfInferRequests = none) →
      GetMetricOptimalNumberOfInferRequests st = .error .GeneralError) ∧
    (∀ ds cfg2, GetMetricOptimalNumberOfInferRequests
        { st with devicePriorities := ds, config := cfg2 } =
      GetMetricOptimalNumberOfInferRequests st) := by
  refine ⟨?_, ?_, fun ds cfg2 => rfl⟩
  · intro hall
    unfold GetMetricOptimalNumberOfInferRequests
    rw [getMetricLoop_ok st.networksPerDevice 0 (by positivity) hall,
      Nat.zero_add, specAggregateCapacity_eq]
  · intro hex
    exact getMetricLoop_err st.networksPerDevice 0 hex

/-- C8 witness: the amended statement at a small state (sum 2, no wrap)
and the failure case at a state with an unreporting device. -/
theorem C8_metric_mod_witness :
    GetMetricOptimalNumberOfInferRequests stPrio =
      .ok (specAggregateCapacity stPrio % 2 ^ 32) ∧
    GetMetricOptimalNumberOfInferRequests stNoMetric = .error IEError.GeneralError :=
  ⟨(C8_metric_mod stPrio).1 (by decide), (C8_metric_mod stNoMetric).2.1 (by decide)⟩

/-- C9.  After a successful reconfiguration with priority value `v`, the
stored configuration map's priorities entry holds `v` — so `GetConfig` of
the device-priority key returns `v` — every other configuration entry is
unchanged, the registry now holds the parsed list, and nothing else in the
state changed. -/
theorem C9_config_update (parseMetaDevices : String → List DeviceInformation)
    (cfg : List (String × String)) (st : NetState) (v : String)
    (hv : lookupKey KEY_MULTI_DEVICE_PRIORITIES cfg = some v)
    (hok : (SetConfig parseMetaDevices cfg st).2 = none) :
    GetConfig KEY_MULTI_DEVICE_PRIORITIES (SetConfig parseMetaDevices cfg st).1 =
      .ok v ∧
    (∀ k, k ≠ KEY_MULTI_DEVICE_PRIORITIES →
      lookupKey k (SetConfig parseMetaDevices cfg st).1.config =
        lookupKey k st.config) ∧
    (SetConfig parseMetaDevices cfg st).1.devicePriorities = parseMetaDevices v ∧
    (SetConfig parseMetaDevices cfg st).1.workerTask = st.workerTask ∧
    (SetConfig parseMetaDevices cfg st).1.idleWorkerRequests =
      st.idleWorkerRequests ∧
    (SetConfig parseMetaDevices cfg st).1.inferPipelineTasks =
      st.inferPipelineTasks ∧
    (SetConfig parseMetaDevices cfg st).1.terminate = st.terminate := by
  have hres := SetConfig_success parseMetaDevices cfg st v hv hok
  have hcfg : (SetConfig parseMetaDevices cfg st).1.config =
      setKey KEY_MULTI_DEVICE_PRIORITIES v st.config := by
    rw [hres]
  refine ⟨?_, ?_, ?_, ?_, ?_, ?_, ?_⟩
  · unfold GetConfig
    rw [hcfg, lookupKey_setKey_self]
  · intro k hk
    rw [hcfg, lookupKey_setKey_ne _ _ _ _ hk]
  · rw [hres]
  · rw [hres]
  · rw [hres]
  · rw [hres]
  · rw [hres]

/-- C9 witness: a successful concrete reconfiguration; the priorities
entry now reads back, the unrelated entry is untouched. -/
theorem C9_config_update_witness :
    GetConfig KEY_MULTI_DEVICE_PRIORITIES
      (SetConfig exParse [(KEY_MULTI_DEVICE_PRIORITIES, "CPU")] stCfg).1 =
      .ok "CPU" ∧
    lookupKey "PERF_COUNT"
      (SetConfig exParse [(KEY_MULTI_DEVICE_PRIORITIES, "CPU")] stCfg).1.config =
      lookupKey "PERF_COUNT" stCfg.config :=
  ⟨(C9_config_update exParse [(KEY_MULTI_DEVICE_PRIORITIES, "CPU")] stCfg "CPU"
      rfl (by decide)).1,
   (C9_config_update exParse [(KEY_MULTI_DEVICE_PRIORITIES, "CPU")] stCfg "CPU"
      rfl (by decide)).2.1 "PERF_COUNT" (by decide)⟩

/-- C10.  Whenever a scheduler invocation pairs a pending task with a
worker slot, the thread-affinity pointer `_thisWorkerInferRequest` is set
to that very slot before the task is invoked, so during the task's
execution body the pointer identifies exactly the slot the task was bound
to: either no binding changes at all, or the single slot whose binding
becomes the popped task is precisely the one the pointer names. -/
theorem C10_this_worker_pointer (st : NetState) :
    (∀ v, (ScheduleToWorkerInferRequest st).workerTask v = st.workerTask v) ∨
    (∃ w t, (ScheduleToWorkerInferRequest st).thisWorkerInferRequest = some w ∧
      (ScheduleToWorkerInferRequest st).workerTask w = some t ∧
      (∀ v, v ≠ w →
        (ScheduleToWorkerInferRequest st).workerTask v = st.workerTask v) ∧
      st.inferPipelineTasks =
        t :: (ScheduleToWorkerInferRequest st).inferPipelineTasks) := by
  unfold ScheduleToWorkerInferRequest
  exact scheduleLoop_binding st.devicePriorities _

/-- C10 witness: at the concrete paired dispatch, the pointer names the
slot that received the task. -/
theorem C10_this_worker_pointer_witness :
    (ScheduleToWorkerInferRequest stPrio).thisWorkerInferRequest = some ("A", 0) ∧
    (ScheduleToWorkerInferRequest stPrio).workerTask ("A", 0) = some 7 := by
  rcases C10_this_worker_pointer stPrio with h | ⟨w, t, h1, h2, h3, h4⟩
  · exact absurd (h (("A", 0) : SlotId)) (by decide)
  · have hthis : (ScheduleToWorkerInferRequest stPrio).thisWorkerInferRequest =
        some (("A", 0) : SlotId) := by decide
    refine ⟨hthis, ?_⟩
    rw [hthis] at h1
    have hw : (("A", 0) : SlotId) = w := by injection h1
    rw [← hw] at h2
    have ht7 : t = 7 := by
      have h4' := h4
      rw [show (ScheduleToWorkerInferRequest stPrio).inferPipelineTasks = [] from
        by decide] at h4'
      rw [show stPrio.inferPipelineTasks = [7] from rfl] at h4'
      injection h4' with heq _
      exact heq.symm
    rw [← ht7]
    exact h2

end MultiDevicePlugin
